import Mathlib

/-!
Shallow embedding of the offers-resolver eligibility subsystem.

Sources embedded here:
- `packages/shared/src/customerTypes.ts` (customer-type ranks, tier rule)
- `apps/api/src/jobs/eligibility/recompute.ts` (budget predicates, rebuilds)
- `apps/api/src/graphql/resolvers/user/helpers/offers/filters.ts`
  (take normalization, cursor codec, resolver SQL predicates, pagination)
- `apps/api/src/loaders/offerLoaders.ts` (per-outlet eligibility SQL)

Modelling conventions: JavaScript numbers produced by `Number(...)` on budget
fields are `JsNum` (a rational or `NaN`); SQL `timestamptz` values are `Int`
(only their ordering matters); nullable columns are `Option`; SQL three-valued
logic is encoded by making every `NULL` comparison evaluate to `false` (a SQL
`WHERE` keeps a row only when the predicate is `true`).
-/

namespace OffersResolver

/-- A JavaScript number as produced by `Number(x)` on a budget field: a finite
value (modelled as a rational, which covers every decimal the store returns)
or `NaN` for non-numeric input. `Number` does not throw on stored field
values, so the source's `catch` branch is dead code; non-numeric fields
surface as `NaN` here. -/
inductive JsNum where
  | num (q : ℚ)
  | nan
deriving DecidableEq

/-- JavaScript `<` on numbers: any comparison involving `NaN` is `false`. -/
def jsLt : JsNum → JsNum → Bool
  | .num a, .num b => decide (a < b)
  | _, _ => false

/-- JavaScript `>=` on numbers: any comparison involving `NaN` is `false`. -/
def jsGe : JsNum → JsNum → Bool
  | .num a, .num b => decide (b ≤ a)
  | _, _ => false

/-- `cashbackBudgetExhausted` from `recompute.ts`: `!(usedNum < netNum)`. -/
def cashbackBudgetExhausted (net used : JsNum) : Bool :=
  !(jsLt used net)

/-- `offerBudgetExhausted` from `recompute.ts` (exclusive offers): same body
as the cashback variant. -/
def offerBudgetExhausted (net used : JsNum) : Bool :=
  !(jsLt used net)

/-- `pointsLimitExhausted` from `recompute.ts`: a `null` limit is unlimited,
otherwise `usedNum >= limitNum`. -/
def pointsLimitExhausted (limit : Option JsNum) (used : JsNum) : Bool :=
  match limit with
  | none => false
  | some l => jsGe used l

/-- The `Object.prototype` member names. `ORDERED_CUSTOMER_TYPES` is a plain
object literal, so the bracket lookup `ORDERED_CUSTOMER_TYPES[type]` walks
the prototype chain and finds these twelve keys there, yielding a
non-nullish function (or, for `__proto__`, an object) on which `?? 0` never
fires. -/
def objectPrototypeKeys : List String :=
  ["constructor", "hasOwnProperty", "isPrototypeOf", "propertyIsEnumerable",
   "toLocaleString", "toString", "valueOf", "__proto__", "__defineGetter__",
   "__defineSetter__", "__lookupGetter__", "__lookupSetter__"]

/-- What `customerTypeRank` actually returns: the number its signature
promises, or an inherited `Object.prototype` member leaking through the
record lookup. -/
inductive RankResult where
  | num (n : Nat)
  | protoMember (name : String)
deriving DecidableEq

/-- `customerTypeRank` from `customerTypes.ts`, with the record lookup's full
JavaScript semantics. `none` models `null` and `undefined`; the empty string
is also falsy (`!type`), so both return rank 0 before the lookup. The
if-chain is `ORDERED_CUSTOMER_TYPES[type]` (NonCustomer 0, New 1,
Infrequent 2, Occasional 3, Regular 4, Vip 5): an own key yields its number;
an `Object.prototype` member name yields the inherited member (non-nullish,
so the `?? 0` fallback does not fire); any other key yields `undefined` and
falls back to 0. -/
def customerTypeRank (type? : Option String) : RankResult :=
  match type? with
  | none => .num 0
  | some t =>
    if t = "" then .num 0
    else if t = "NonCustomer" then .num 0
    else if t = "New" then .num 1
    else if t = "Infrequent" then .num 2
    else if t = "Occasional" then .num 3
    else if t = "Regular" then .num 4
    else if t = "Vip" then .num 5
    else if t ∈ objectPrototypeKeys then .protoMember t
    else .num 0

/-- The numeric reading of `customerTypeRank` used by the recompute model,
whose results flow into integer index columns (`LoyaltyTierIndex.tierRank`,
`UserMerchantProfile.rank`). It is exact on every input whose lookup result
is a number — everything except the twelve `Object.prototype` member names,
for which the real program would hand a non-number to an integer-column
insert; the index-state model does not represent that failure mode, and the
customer types this subsystem stores are the six known names. -/
def customerTypeRankNat (type? : Option String) : Nat :=
  match customerTypeRank type? with
  | .num n => n
  | .protoMember _ => 0

/-- `isTierEligible` from `customerTypes.ts`: `userRank >= tierMinRank`. -/
def isTierEligible (userRank tierMinRank : Int) : Bool :=
  decide (tierMinRank ≤ userRank)

/-- `normalizeTake` from `filters.ts`: `Math.max(1, Math.min(take ?? 20, 50))`. -/
def normalizeTake (take? : Option Int) : Int :=
  max 1 (min (take?.getD 20) 50)

/-- Date-window predicate of the resolver and loader SQL: both bounds `NULL`,
or `startDate <= now AND endDate >= now`; a comparison against a `NULL` bound
is not `true` in SQL, so a half-open window falls in neither branch. -/
def dateWindowOpen (startDate endDate : Option Int) (now : Int) : Bool :=
  match startDate, endDate with
  | none, none => true
  | some s, some e => decide (s ≤ now) && decide (now ≤ e)
  | _, _ => false

/-- Condition 1 of the customer-type rule SQL: the offer lists `'All'`.
`eligibleTypes` is the offer's `OfferIndexCustomerType` child set;
`profileType` is the user's profile row at the offer's merchant (`none` when
the `LEFT JOIN` finds no row). -/
def condAll (eligibleTypes : List String) : Bool :=
  eligibleTypes.contains "All"

/-- Condition 2: the user has a profile at the merchant and the offer lists
that exact type (`p."customerType" IS NOT NULL AND EXISTS ...`). -/
def condExactType (eligibleTypes : List String) (profileType : Option String) : Bool :=
  match profileType with
  | some t => eligibleTypes.contains t
  | none => false

/-- Condition 3: the user has no profile at the merchant and the offer lists
`'NonCustomer'` (`p."customerType" IS NULL AND EXISTS ...`). -/
def condNonCustomer (eligibleTypes : List String) (profileType : Option String) : Bool :=
  profileType.isNone && eligibleTypes.contains "NonCustomer"

/-- The customer-type rule as the resolver and loader SQL state it: the
disjunction of the three conditions. -/
def customerTypeRuleMatches (eligibleTypes : List String) (profileType : Option String) : Bool :=
  condAll eligibleTypes || condExactType eligibleTypes profileType ||
    condNonCustomer eligibleTypes profileType

/-- C8 counterexample: `customerTypeRank("toString")` returns the inherited
`Object.prototype.toString` member, not rank 0 — the record lookup
`ORDERED_CUSTOMER_TYPES[type]` finds it through the prototype chain and a
function is not nullish, so `?? 0` never fires. The claim's unknown-string
clause fails as stated. -/
theorem customerTypeRank_proto_cex :
    customerTypeRank (some "toString") = RankResult.protoMember "toString" ∧
    customerTypeRank (some "toString") ≠ RankResult.num 0 := by decide

/-- C8 (amended): `isTierEligible(userRank, tierMinRank)` holds iff
`userRank >= tierMinRank`; `customerTypeRank` maps `null`/missing/empty and
every unknown string that is not an `Object.prototype` member name to rank
0, and the known types to `NonCustomer = 0` through `Vip = 5`; the twelve
`Object.prototype` member names return the inherited (non-number) member
instead of a rank. -/
theorem tier_rank_rule :
    (∀ u t : Int, isTierEligible u t = true ↔ t ≤ u) ∧
    customerTypeRank none = RankResult.num 0 ∧
    customerTypeRank (some "") = RankResult.num 0 ∧
    (∀ s : String, s ≠ "NonCustomer" → s ≠ "New" → s ≠ "Infrequent" →
      s ≠ "Occasional" → s ≠ "Regular" → s ≠ "Vip" → s ∉ objectPrototypeKeys →
      customerTypeRank (some s) = RankResult.num 0) ∧
    (∀ s : String, s ∈ objectPrototypeKeys →
      customerTypeRank (some s) = RankResult.protoMember s ∧
      ∀ n : Nat, customerTypeRank (some s) ≠ RankResult.num n) ∧
    (customerTypeRank (some "NonCustomer") = RankResult.num 0 ∧
     customerTypeRank (some "New") = RankResult.num 1 ∧
     customerTypeRank (some "Infrequent") = RankResult.num 2 ∧
     customerTypeRank (some "Occasional") = RankResult.num 3 ∧
     customerTypeRank (some "Regular") = RankResult.num 4 ∧
     customerTypeRank (some "Vip") = RankResult.num 5) := by
  refine ⟨fun u t => by simp [isTierEligible], rfl, by decide, ?_, ?_, by decide⟩
  · intro s h1 h2 h3 h4 h5 h6 h7
    simp only [customerTypeRank, h1, h2, h3, h4, h5, h6, h7, if_false]
    split <;> rfl
  · intro s hs
    have he : customerTypeRank (some s) = RankResult.protoMember s := by
      fin_cases hs <;> decide
    exact ⟨he, fun n h => by rw [he] at h; exact RankResult.noConfusion h⟩

/-- C9: the normalized page size is always in `[1, 50]`; `null`/`undefined`
defaults to 20, values above 50 clamp to 50, values below 1 clamp to 1. -/
theorem normalizeTake_clamps :
    (∀ t : Option Int, 1 ≤ normalizeTake t ∧ normalizeTake t ≤ 50) ∧
    normalizeTake none = 20 ∧
    (∀ n : Int, 50 < n → normalizeTake (some n) = 50) ∧
    (∀ n : Int, n < 1 → normalizeTake (some n) = 1) := by
  refine ⟨fun t => ?_, by decide, fun n h => ?_, fun n h => ?_⟩
  · cases t <;> (simp only [normalizeTake, Option.getD]; omega)
  · simp only [normalizeTake, Option.getD]; omega
  · simp only [normalizeTake, Option.getD]; omega

/-- The three `OfferIndex.kind` enum values. -/
inductive OfferKind where
  | CASHBACK
  | EXCLUSIVE
  | LOYALTY
deriving DecidableEq

/-- An `OfferIndex` row as the recompute engine writes it and the resolver
reads it. The surrogate `id` column is modelled away (rows are keyed by their
unique source-entity id in the state model below); `computedAt` carries the
wall-clock time of the writing recompute. -/
structure OfferRow where
  kind : OfferKind
  merchantId : String
  isActiveSnapshot : Bool
  isApprovedSnapshot : Bool
  deletedAtSnapshot : Option Int
  budgetExhausted : Bool
  startDate : Option Int
  endDate : Option Int
  maxCashbackPercentBps : Option Int
  computedAt : Int
deriving DecidableEq

/-- Row-level gate of the resolver's `eligible_cashback_or_exclusive` CTE and
of the loader's non-loyalty branch: kind, activity, approval, deletion,
budget and date-window checks on one `OfferIndex` row. -/
def cashbackExclusiveRowActive (r : OfferRow) (now : Int) : Bool :=
  (r.kind == OfferKind.CASHBACK || r.kind == OfferKind.EXCLUSIVE) &&
  r.isActiveSnapshot && r.isApprovedSnapshot && r.deletedAtSnapshot.isNone &&
  !r.budgetExhausted && dateWindowOpen r.startDate r.endDate now

/-- A review row; the sources only ever check `status === "Approved"` (or
`status = 'Approved'` in SQL). -/
structure Review where
  status : String
deriving DecidableEq

/-- `isApproved` from `recompute.ts`: `review?.status === "Approved"`. -/
def isApproved (review? : Option Review) : Bool :=
  match review? with
  | some r => r.status == "Approved"
  | none => false

/-- A cashback percentage tier as `rebuildCashbackIndex` loads it; the
include's `where` filter (`isActive`, `deletedAt: null`, approved review) is
applied inside the rebuild model. -/
structure CashbackTier where
  isActive : Bool
  deletedAt : Option Int
  review : Option Review
  percentage : Int
deriving DecidableEq

/-- The cashback configuration source entity with the relations
`rebuildCashbackIndex` loads. -/
structure CashbackConfiguration where
  id : String
  merchantId : String
  isActive : Bool
  review : Option Review
  deletedAt : Option Int
  netCashbackBudget : JsNum
  usedCashbackBudget : JsNum
  startDate : Option Int
  endDate : Option Int
  eligibleCustomerTypes : List String
  outletIds : List String
  tiers : List CashbackTier
deriving DecidableEq

/-- The exclusive offer source entity with the relations
`rebuildExclusiveIndex` loads; `merchantId` is the scalar column and
`merchantRelId` the id reached through the `Merchant` relation
(`eo.merchantId ?? eo.Merchant?.id`). -/
structure ExclusiveOffer where
  id : String
  merchantId : Option String
  merchantRelId : Option String
  isActive : Bool
  review : Option Review
  deletedAt : Option Int
  netOfferBudget : JsNum
  usedOfferBudget : JsNum
  startDate : Option Int
  endDate : Option Int
  eligibleCustomerTypes : List String
  outletIds : List String
deriving DecidableEq

/-- A loyalty tier with its review, as loaded by
`rebuildLoyaltyIndexByMerchant`. -/
structure LoyaltyTier where
  isActive : Bool
  deletedAt : Option Int
  review : Option Review
  minCustomerType : Option String
deriving DecidableEq

/-- A merchant loyalty reward with its review. -/
structure LoyaltyReward where
  isActive : Bool
  review : Option Review
deriving DecidableEq

/-- The loyalty program source entity with its tiers and rewards. -/
structure LoyaltyProgram where
  id : String
  isActive : Bool
  review : Option Review
  pointsIssuedLimit : Option JsNum
  pointsUsedInPeriod : JsNum
  tiers : List LoyaltyTier
  rewards : List LoyaltyReward
deriving DecidableEq

/-- The merchant as `rebuildLoyaltyIndexByMerchant` loads it: optional
loyalty program plus the merchant's outlet ids. -/
structure Merchant where
  id : String
  loyaltyProgram : Option LoyaltyProgram
  outletIds : List String
deriving DecidableEq

/-- A `LoyaltyTierIndex` row (surrogate id modelled away). -/
structure LoyaltyTierRow where
  tierRank : Nat
  isActiveSnapshot : Bool
  isApprovedSnapshot : Bool
  deletedAtSnapshot : Option Int
deriving DecidableEq

/-- The five index tables. Rows are keyed by natural keys: `offerRows` by the
offer's unique source-entity id column (`cashbackConfigurationId` /
`exclusiveOfferId` / `loyaltyProgramId`, each `UNIQUE` and the key of the
upsert); the child tables by the same key, standing for child rows that
reference the parent's surrogate id; `profiles` by `userId`, each row a
(merchantId, customerType, rank) triple. -/
structure IndexState where
  offerRows : String → Option OfferRow
  childTypes : String → List String
  childOutlets : String → List String
  tierRows : String → List LoyaltyTierRow
  profiles : String → List (String × String × Nat)

/-- Pointwise update of a string-keyed table. -/
def setAt {α : Type} (f : String → α) (k : String) (v : α) : String → α :=
  fun k' => if k' = k then v else f k'

/-- `rebuildCashbackIndex` as a state transformer. `cc?` is the result of the
`findUnique` load (`none` when the source row no longer exists, in which case
the operation returns before touching any table). The upsert writes the
parent row keyed by `cashbackConfigurationId`; the transaction then deletes
and recreates both child sets. `createMany` on the outlet rows passes
`skipDuplicates` (dedup against the unique `(offerIndexId, outletId)` pair);
the customer-type `createMany` inserts the loaded list as is. -/
def rebuildCashbackIndexApply (st : IndexState) (cc? : Option CashbackConfiguration)
    (now : Int) : IndexState :=
  match cc? with
  | none => st
  | some cc =>
    let approvedTiers := cc.tiers.filter fun t =>
      t.isActive && t.deletedAt.isNone && isApproved t.review
    let maxBps := approvedTiers.foldl (fun m t => max m t.percentage) 0
    let exhausted := cashbackBudgetExhausted cc.netCashbackBudget cc.usedCashbackBudget
    { st with
      offerRows := setAt st.offerRows cc.id (some {
        kind := OfferKind.CASHBACK
        merchantId := cc.merchantId
        isActiveSnapshot := cc.isActive
        isApprovedSnapshot := isApproved cc.review
        deletedAtSnapshot := cc.deletedAt
        budgetExhausted := exhausted
        startDate := cc.startDate
        endDate := cc.endDate
        maxCashbackPercentBps := some maxBps
        computedAt := now })
      childTypes := setAt st.childTypes cc.id cc.eligibleCustomerTypes
      childOutlets := setAt st.childOutlets cc.id cc.outletIds.dedup }

/-- `rebuildExclusiveIndex` as a state transformer; additionally a no-op when
neither the scalar `merchantId` nor the `Merchant` relation yields an id. -/
def rebuildExclusiveIndexApply (st : IndexState) (eo? : Option ExclusiveOffer)
    (now : Int) : IndexState :=
  match eo? with
  | none => st
  | some eo =>
    match eo.merchantId <|> eo.merchantRelId with
    | none => st
    | some mid =>
      let exhausted := offerBudgetExhausted eo.netOfferBudget eo.usedOfferBudget
      { st with
        offerRows := setAt st.offerRows eo.id (some {
          kind := OfferKind.EXCLUSIVE
          merchantId := mid
          isActiveSnapshot := eo.isActive
          isApprovedSnapshot := isApproved eo.review
          deletedAtSnapshot := eo.deletedAt
          budgetExhausted := exhausted
          startDate := eo.startDate
          endDate := eo.endDate
          maxCashbackPercentBps := none
          computedAt := now })
        childTypes := setAt st.childTypes eo.id eo.eligibleCustomerTypes
        childOutlets := setAt st.childOutlets eo.id eo.outletIds.dedup }

/-- `rebuildLoyaltyIndexByMerchant` as a state transformer: a no-op when the
merchant or its loyalty program is missing; otherwise upserts the parent row
keyed by `loyaltyProgramId` and replaces the outlet and tier child sets. A
tier contributes iff active, not soft-deleted and approved; tier-index
snapshot columns are written `true`/`true`/`NULL`. -/
def rebuildLoyaltyIndexByMerchantApply (st : IndexState) (merchant? : Option Merchant)
    (now : Int) : IndexState :=
  match merchant? with
  | none => st
  | some m =>
    match m.loyaltyProgram with
    | none => st
    | some lp =>
      let exhausted := pointsLimitExhausted lp.pointsIssuedLimit lp.pointsUsedInPeriod
      let activeApprovedTierRanks :=
        (lp.tiers.filter fun t =>
          t.isActive && t.deletedAt.isNone && isApproved t.review).map
          fun t => customerTypeRankNat t.minCustomerType
      let hasRewards := lp.rewards.any fun rw => rw.isActive && isApproved rw.review
      let approvedSnap := isApproved lp.review && hasRewards &&
        decide (0 < activeApprovedTierRanks.length)
      { st with
        offerRows := setAt st.offerRows lp.id (some {
          kind := OfferKind.LOYALTY
          merchantId := m.id
          isActiveSnapshot := lp.isActive
          isApprovedSnapshot := approvedSnap
          deletedAtSnapshot := none
          budgetExhausted := exhausted
          startDate := none
          endDate := none
          maxCashbackPercentBps := none
          computedAt := now })
        childOutlets := setAt st.childOutlets lp.id m.outletIds.dedup
        tierRows := setAt st.tierRows lp.id (activeApprovedTierRanks.map fun rank =>
          { tierRank := rank, isActiveSnapshot := true, isApprovedSnapshot := true,
            deletedAtSnapshot := none }) }

/-- `rebuildUserMerchantProfilesForUser` as a state transformer: `rows` is
the result of the `customerType.findMany` load ((merchantId, type) pairs).
The code always issues `deleteMany` for the user and then bulk-inserts the
current set, so the user's profile list is replaced even when `rows` is
empty. -/
def rebuildUserMerchantProfilesApply (st : IndexState) (userId : String)
    (rows : List (String × String)) : IndexState :=
  { st with
    profiles := setAt st.profiles userId
      (rows.map fun r => (r.1, r.2, customerTypeRankNat (some r.2))) }

/-- Every column of an `OfferIndex` row except the `computedAt` bookkeeping
timestamp (which records the wall-clock time of the writing recompute). -/
def OfferRow.semantic (r : OfferRow) :
    OfferKind × String × Bool × Bool × Option Int × Bool × Option Int ×
      Option Int × Option Int :=
  (r.kind, r.merchantId, r.isActiveSnapshot, r.isApprovedSnapshot,
   r.deletedAtSnapshot, r.budgetExhausted, r.startDate, r.endDate,
   r.maxCashbackPercentBps)

/-- The empty index state, used by concrete evaluations. -/
def emptyIndexState : IndexState :=
  { offerRows := fun _ => none
    childTypes := fun _ => []
    childOutlets := fun _ => []
    tierRows := fun _ => []
    profiles := fun _ => [] }

/-- C1 counterexample: with a net budget of 0 and a (negative) used counter of
-1 the code computes `!(-1 < 0) = false`, i.e. not exhausted — so "net == 0
implies exhausted regardless of used" fails as stated. -/
theorem budget_zero_net_cex :
    cashbackBudgetExhausted (JsNum.num 0) (JsNum.num (-1)) = false := by decide

/-- C1 (amended): `used == net` is exhausted; `used < net` is not exhausted;
`net == 0` is exhausted for every non-negative `used`; a `NaN` (non-numeric)
budget field on either side is exhausted (fail closed); and the
exclusive-offer variant computes the same function. -/
theorem budget_boundary :
    (∀ q : ℚ, cashbackBudgetExhausted (.num q) (.num q) = true) ∧
    (∀ n u : ℚ, u < n → cashbackBudgetExhausted (.num n) (.num u) = false) ∧
    (∀ u : ℚ, 0 ≤ u → cashbackBudgetExhausted (.num 0) (.num u) = true) ∧
    (∀ x : JsNum, cashbackBudgetExhausted .nan x = true ∧
      cashbackBudgetExhausted x .nan = true) ∧
    (∀ n u : JsNum, offerBudgetExhausted n u = cashbackBudgetExhausted n u) := by
  refine ⟨fun q => ?_, fun n u h => ?_, fun u h => ?_, fun x => ?_, fun n u => rfl⟩
  · simp [cashbackBudgetExhausted, jsLt]
  · simp [cashbackBudgetExhausted, jsLt, h]
  · have h' : ¬(u < 0) := not_lt.mpr h
    simp [cashbackBudgetExhausted, jsLt, h']
  · cases x <;> simp [cashbackBudgetExhausted, jsLt]

/-- C2 counterexample: an offer listing `['All', 'Vip']` and a user holding a
`Vip` profile at its merchant satisfy the `All` condition and the exact-type
condition simultaneously, so the three conditions of the customer-type rule
are not mutually exclusive and "exactly one case applies" fails as stated. -/
theorem customerTypeRule_overlap_cex :
    condAll ["All", "Vip"] = true ∧
    condExactType ["All", "Vip"] (some "Vip") = true ∧
    customerTypeRuleMatches ["All", "Vip"] (some "Vip") = true := by decide

/-- C2 (amended): the two profile-dependent conditions — exact-type match and
NonCustomer default — are mutually exclusive (a user either has a profile at
the merchant or does not), but the `All` condition may overlap either; once
the `All` case is given priority, exactly one of the four cases (All-match,
non-All exact-type match, non-All NonCustomer default, no-match) applies to
every pair of eligible-type set and profile-or-absence. -/
theorem customerTypeRule_cases :
    (∀ (e : List String) (p : Option String),
      ¬(condExactType e p = true ∧ condNonCustomer e p = true)) ∧
    (∀ (e : List String) (p : Option String),
      [condAll e,
       !condAll e && condExactType e p,
       !condAll e && condNonCustomer e p,
       !customerTypeRuleMatches e p].count true = 1) := by
  have excl : ∀ (e : List String) (p : Option String),
      ¬(condExactType e p = true ∧ condNonCustomer e p = true) := by
    rintro e p ⟨h2, h3⟩
    cases p with
    | none => simp [condExactType] at h2
    | some t => simp [condNonCustomer] at h3
  refine ⟨excl, fun e p => ?_⟩
  have h := excl e p
  cases h1 : condAll e <;> cases h2 : condExactType e p <;>
    cases h3 : condNonCustomer e p <;>
    simp_all [customerTypeRuleMatches, List.count_cons]

/-- C10: a CASHBACK or EXCLUSIVE index row with exactly one of its date
bounds set (a half-open window) is never eligible at any current time: the
date predicate accepts only a both-null window or `start <= now <= end`, and
a half-open window matches neither branch. -/
theorem halfOpen_window_never_eligible :
    ∀ (r : OfferRow) (b now : Int),
      cashbackExclusiveRowActive
        { r with startDate := some b, endDate := none } now = false ∧
      cashbackExclusiveRowActive
        { r with startDate := none, endDate := some b } now = false := by
  intro r b now
  constructor <;> simp [cashbackExclusiveRowActive, dateWindowOpen]

/-- Row-level gate of the resolver's `eligible_loyalty` CTE and the loader's
loyalty branch: a LOYALTY row must pass the activity, approval, deletion and
budget checks and have at least one tier-index row that is active, approved,
not deleted and whose `tierRank` is at most `COALESCE(p."rank", 0)`. -/
def loyaltyRowEligible (r : OfferRow) (tierRows : List LoyaltyTierRow)
    (userRank : Nat) : Bool :=
  (r.kind == OfferKind.LOYALTY) && r.isActiveSnapshot && r.isApprovedSnapshot &&
  r.deletedAtSnapshot.isNone && !r.budgetExhausted &&
  tierRows.any fun t =>
    t.isActiveSnapshot && t.isApprovedSnapshot && t.deletedAtSnapshot.isNone &&
    decide (t.tierRank ≤ userRank)

/-- The outlets the LOYALTY index entry keyed `k` contributes to the
resolver's eligible-outlet union for a user of rank `userRank` (the
`JOIN "OfferIndexOutlet"` under the `eligible_loyalty` predicate). -/
def loyaltyContributedOutlets (st : IndexState) (k : String)
    (userRank : Nat) : List String :=
  match st.offerRows k with
  | none => []
  | some r =>
    if loyaltyRowEligible r (st.tierRows k) userRank then st.childOutlets k else []

/-- A row whose approval snapshot is false never passes the loyalty gate. -/
theorem loyaltyRowEligible_false_of_not_approved (r : OfferRow)
    (trs : List LoyaltyTierRow) (u : Nat) (h : r.isApprovedSnapshot = false) :
    loyaltyRowEligible r trs u = false := by
  simp [loyaltyRowEligible, h]

/-- C5: recomputing a second time from unchanged source state writes
identical index rows — the parent `OfferIndex` row up to its `computedAt`
bookkeeping timestamp, and the child customer-type, outlet, loyalty-tier and
profile sets exactly — at every key, regardless of the prior index state,
for all four recompute operations. -/
theorem recompute_idempotent :
    (∀ (st : IndexState) (cc : CashbackConfiguration) (now1 now2 : Int) (k : String),
      ((rebuildCashbackIndexApply (rebuildCashbackIndexApply st (some cc) now1)
          (some cc) now2).offerRows k).map OfferRow.semantic =
        ((rebuildCashbackIndexApply st (some cc) now1).offerRows k).map OfferRow.semantic ∧
      (rebuildCashbackIndexApply (rebuildCashbackIndexApply st (some cc) now1)
          (some cc) now2).childTypes k =
        (rebuildCashbackIndexApply st (some cc) now1).childTypes k ∧
      (rebuildCashbackIndexApply (rebuildCashbackIndexApply st (some cc) now1)
          (some cc) now2).childOutlets k =
        (rebuildCashbackIndexApply st (some cc) now1).childOutlets k) ∧
    (∀ (st : IndexState) (eo : ExclusiveOffer) (now1 now2 : Int) (k : String),
      ((rebuildExclusiveIndexApply (rebuildExclusiveIndexApply st (some eo) now1)
          (some eo) now2).offerRows k).map OfferRow.semantic =
        ((rebuildExclusiveIndexApply st (some eo) now1).offerRows k).map OfferRow.semantic ∧
      (rebuildExclusiveIndexApply (rebuildExclusiveIndexApply st (some eo) now1)
          (some eo) now2).childTypes k =
        (rebuildExclusiveIndexApply st (some eo) now1).childTypes k ∧
      (rebuildExclusiveIndexApply (rebuildExclusiveIndexApply st (some eo) now1)
          (some eo) now2).childOutlets k =
        (rebuildExclusiveIndexApply st (some eo) now1).childOutlets k) ∧
    (∀ (st : IndexState) (m : Merchant) (now1 now2 : Int) (k : String),
      ((rebuildLoyaltyIndexByMerchantApply (rebuildLoyaltyIndexByMerchantApply st
          (some m) now1) (some m) now2).offerRows k).map OfferRow.semantic =
        ((rebuildLoyaltyIndexByMerchantApply st (some m) now1).offerRows k).map
          OfferRow.semantic ∧
      (rebuildLoyaltyIndexByMerchantApply (rebuildLoyaltyIndexByMerchantApply st
          (some m) now1) (some m) now2).childOutlets k =
        (rebuildLoyaltyIndexByMerchantApply st (some m) now1).childOutlets k ∧
      (rebuildLoyaltyIndexByMerchantApply (rebuildLoyaltyIndexByMerchantApply st
          (some m) now1) (some m) now2).tierRows k =
        (rebuildLoyaltyIndexByMerchantApply st (some m) now1).tierRows k) ∧
    (∀ (st : IndexState) (u : String) (rows : List (String × String)),
      rebuildUserMerchantProfilesApply (rebuildUserMerchantProfilesApply st u rows)
        u rows = rebuildUserMerchantProfilesApply st u rows) := by
  refine ⟨fun st cc now1 now2 k => ?_, fun st eo now1 now2 k => ?_,
    fun st m now1 now2 k => ?_, fun st u rows => ?_⟩
  · by_cases hk : k = cc.id <;>
      simp [rebuildCashbackIndexApply, setAt, hk, OfferRow.semantic]
  · cases hmid : (eo.merchantId <|> eo.merchantRelId) with
    | none => simp [rebuildExclusiveIndexApply, hmid]
    | some mid =>
      by_cases hk : k = eo.id <;>
        simp [rebuildExclusiveIndexApply, hmid, setAt, hk, OfferRow.semantic]
  · cases hlp : m.loyaltyProgram with
    | none => simp [rebuildLoyaltyIndexByMerchantApply, hlp]
    | some lp =>
      by_cases hk : k = lp.id <;>
        simp [rebuildLoyaltyIndexByMerchantApply, hlp, setAt, hk, OfferRow.semantic]
  · simp only [rebuildUserMerchantProfilesApply]
    congr 1
    funext k
    by_cases hk : k = u <;> simp [setAt, hk]

/-- C6: after the loyalty rebuild, the stored `isApprovedSnapshot` is true
iff the program's review is approved and some reward is active with an
approved review and some tier is active, not soft-deleted and approved; the
merchant's outlets are mapped either way, but when the snapshot is false the
entry contributes no outlets to the resolution union for any user rank. -/
theorem loyalty_approval_snapshot :
    ∀ (st : IndexState) (m : Merchant) (lp : LoyaltyProgram) (now : Int) (userRank : Nat),
      m.loyaltyProgram = some lp →
      ∃ r, (rebuildLoyaltyIndexByMerchantApply st (some m) now).offerRows lp.id = some r ∧
        (r.isApprovedSnapshot = true ↔
          (isApproved lp.review = true ∧
           (lp.rewards.any fun rw => rw.isActive && isApproved rw.review) = true ∧
           lp.tiers.filter (fun t =>
             t.isActive && t.deletedAt.isNone && isApproved t.review) ≠ [])) ∧
        (rebuildLoyaltyIndexByMerchantApply st (some m) now).childOutlets lp.id =
          m.outletIds.dedup ∧
        (r.isApprovedSnapshot = false →
          loyaltyContributedOutlets (rebuildLoyaltyIndexByMerchantApply st (some m) now)
            lp.id userRank = []) := by
  intro st m lp now userRank hlp
  simp only [rebuildLoyaltyIndexByMerchantApply, hlp, loyaltyContributedOutlets, setAt,
    if_pos]
  refine ⟨_, rfl, ?_, ?_, ?_⟩
  · simp only [Bool.and_eq_true, decide_eq_true_eq, List.length_map]
    rw [List.length_pos]
    tauto
  · trivial
  · intro hfalse
    rw [loyaltyRowEligible_false_of_not_approved _ _ _ hfalse]
    simp

/-- A concrete loyalty program whose review is approved but which has no
rewards and no tiers, for instantiating `loyalty_approval_snapshot`. -/
def loyaltyDemoProgram : LoyaltyProgram :=
  { id := "lp1", isActive := true, review := some { status := "Approved" },
    pointsIssuedLimit := none, pointsUsedInPeriod := JsNum.num 0,
    tiers := [], rewards := [] }

/-- A concrete merchant owning `loyaltyDemoProgram` and one outlet. -/
def loyaltyDemoMerchant : Merchant :=
  { id := "m1", loyaltyProgram := some loyaltyDemoProgram, outletIds := ["o1"] }

/-- Witness for `loyalty_approval_snapshot`, at a merchant whose program is
approved but has no rewards and no tiers. -/
theorem loyalty_approval_snapshot_witness :
    ∃ r, (rebuildLoyaltyIndexByMerchantApply emptyIndexState (some loyaltyDemoMerchant)
        0).offerRows loyaltyDemoProgram.id = some r ∧
      (r.isApprovedSnapshot = true ↔
        (isApproved loyaltyDemoProgram.review = true ∧
         (loyaltyDemoProgram.rewards.any fun rw => rw.isActive && isApproved rw.review) = true ∧
         loyaltyDemoProgram.tiers.filter (fun t =>
           t.isActive && t.deletedAt.isNone && isApproved t.review) ≠ [])) ∧
      (rebuildLoyaltyIndexByMerchantApply emptyIndexState (some loyaltyDemoMerchant)
          0).childOutlets loyaltyDemoProgram.id = loyaltyDemoMerchant.outletIds.dedup ∧
      (r.isApprovedSnapshot = false →
        loyaltyContributedOutlets
          (rebuildLoyaltyIndexByMerchantApply emptyIndexState (some loyaltyDemoMerchant) 0)
          loyaltyDemoProgram.id 0 = []) :=
  loyalty_approval_snapshot emptyIndexState loyaltyDemoMerchant loyaltyDemoProgram 0 0 rfl

/-- C7 counterexample: the user-profile recompute invoked for a user with no
customer-type assignments (the missing-source case of that operation) first
deletes the user's existing profile rows, so a prior state holding a stale
row for that user is changed rather than left intact. -/
theorem missing_source_profiles_cex :
    (rebuildUserMerchantProfilesApply
      { emptyIndexState with
        profiles := setAt emptyIndexState.profiles "u1" [("m1", "Regular", 4)] }
      "u1" []).profiles "u1" = [] ∧
    ({ emptyIndexState with
        profiles := setAt emptyIndexState.profiles "u1" [("m1", "Regular", 4)] } :
      IndexState).profiles "u1" = [("m1", "Regular", 4)] := by
  constructor <;> rfl

/-- C7 (amended): each of the three offer-index rebuilds is a silent no-op
leaving every index table unchanged when its source entity is missing (for
the loyalty rebuild, also when the merchant exists but has no loyalty
program); the user-profile rebuild with no source assignments always
replaces the user's profile set, so it leaves the state unchanged exactly
when the user holds no stale profile rows. -/
theorem missing_source_noop :
    (∀ (st : IndexState) (now : Int),
      rebuildCashbackIndexApply st none now = st ∧
      rebuildExclusiveIndexApply st none now = st ∧
      rebuildLoyaltyIndexByMerchantApply st none now = st) ∧
    (∀ (st : IndexState) (m : Merchant) (now : Int),
      m.loyaltyProgram = none →
      rebuildLoyaltyIndexByMerchantApply st (some m) now = st) ∧
    (∀ (st : IndexState) (u : String),
      st.profiles u = [] → rebuildUserMerchantProfilesApply st u [] = st) := by
  refine ⟨fun st now => ⟨rfl, rfl, rfl⟩, fun st m now h => ?_, fun st u h => ?_⟩
  · simp [rebuildLoyaltyIndexByMerchantApply, h]
  · have hp : setAt st.profiles u [] = st.profiles := by
      funext k
      simp only [setAt]
      split
      · next hk => rw [hk, h]
      · rfl
    simp [rebuildUserMerchantProfilesApply, hp]

/-- The base64 alphabet in the order `Buffer.toString("base64")` uses. -/
def b64Alphabet : List Char :=
  ['A', 'B', 'C', 'D', 'E', 'F', 'G', 'H', 'I', 'J', 'K', 'L', 'M',
   'N', 'O', 'P', 'Q', 'R', 'S', 'T', 'U', 'V', 'W', 'X', 'Y', 'Z',
   'a', 'b', 'c', 'd', 'e', 'f', 'g', 'h', 'i', 'j', 'k', 'l', 'm',
   'n', 'o', 'p', 'q', 'r', 's', 't', 'u', 'v', 'w', 'x', 'y', 'z',
   '0', '1', '2', '3', '4', '5', '6', '7', '8', '9', '+', '/']

/-- The character for a sextet value. -/
def b64Chr (v : Nat) : Char :=
  b64Alphabet.getD v 'A'

/-- The sextet a base64 character stands for; `none` for characters outside
the alphabet (Node's decoder skips them, padding `=` included). -/
def b64Val (c : Char) : Option Nat :=
  let i := b64Alphabet.indexOf c
  if i < 64 then some i else none

/-- Base64 encoding of a byte sequence as `Buffer.toString("base64")`
produces it: each group of three bytes becomes four sextet characters; one
or two trailing bytes are encoded into two or three characters plus `=`
padding. -/
def b64Encode : List Nat → List Char
  | [] => []
  | [a] => [b64Chr (a / 4), b64Chr (a % 4 * 16), '=', '=']
  | [a, b] => [b64Chr (a / 4), b64Chr (a % 4 * 16 + b / 16), b64Chr (b % 16 * 4), '=']
  | a :: b :: c :: rest =>
    b64Chr (a / 4) :: b64Chr (a % 4 * 16 + b / 16) ::
      b64Chr (b % 16 * 4 + c / 64) :: b64Chr (c % 64) :: b64Encode rest

/-- Regroup decoded sextets into bytes: four sextets give three bytes, three
trailing sextets two bytes, two trailing sextets one byte, and a lone
trailing sextet is dropped — Node's forgiving decoder, after non-alphabet
characters are skipped. -/
def b64Regroup : List Nat → List Nat
  | v1 :: v2 :: v3 :: v4 :: rest =>
    (v1 * 4 + v2 / 16) :: (v2 % 16 * 16 + v3 / 4) :: (v3 % 4 * 64 + v4) :: b64Regroup rest
  | [v1, v2] => [v1 * 4 + v2 / 16]
  | [v1, v2, v3] => [v1 * 4 + v2 / 16, v2 % 16 * 16 + v3 / 4]
  | _ => []

/-- `Buffer.from(s, "base64")`: skip non-alphabet characters, regroup the
sextets into bytes. Total on every input string — invalid base64 never
throws. -/
def b64Decode (s : List Char) : List Nat :=
  b64Regroup (s.filterMap b64Val)

/-- Little-endian decimal digits of `n` with explicit fuel (structural
recursion keeps the definition kernel-reducible). -/
def decDigitsAux : Nat → Nat → List Nat
  | 0, _ => []
  | fuel + 1, n => if n = 0 then [] else n % 10 :: decDigitsAux fuel (n / 10)

/-- Big-endian decimal digits of `n`, `[0]` for 0 — the digits of
JavaScript's canonical `String(n)`. -/
def decDigits (n : Nat) : List Nat :=
  if n = 0 then [0] else (decDigitsAux n n).reverse

/-- Parse a run of ASCII digit bytes as a natural number; `none` when the
run is empty or holds a non-digit byte. -/
def parseDigits (bs : List Nat) : Option Nat :=
  if bs = [] ∨ bs.any (fun b => decide (b < 48) || decide (57 < b)) then none
  else some (Nat.ofDigits 10 ((bs.map (fun b => b - 48)).reverse))

/-- JavaScript `Number(s)` on the decoded sort-key field: the empty string
is 0, an optional leading `-` followed by decimal digits is the signed
value, anything else is `NaN` (`none`, which fails the `Number.isFinite`
check). This covers the integer fragment of JS numeric parsing — the only
strings `encodeCursor` ever produces; richer forms (fractions, exponents,
hex, whitespace) would only matter for cursors no encoder emitted. -/
def jsNumberOfBytes : List Nat → Option Int
  | [] => some 0
  | b :: rest =>
    if b = 45 then (parseDigits rest).map (fun n : Nat => -(n : Int))
    else (parseDigits (b :: rest)).map (fun n : Nat => (n : Int))

/-- The UTF-8 bytes of `String(sortKey)` for an integer sort key: an
optional `-` (byte 45) then decimal digits (bytes 48-57). -/
def intDecimalBytes (k : Int) : List Nat :=
  if k < 0 then 45 :: (decDigits k.natAbs).map (fun d => d + 48)
  else (decDigits k.natAbs).map (fun d => d + 48)

/-- `raw.split(":")` at the byte level: split at every byte 58 (`:`). UTF-8
continuation bytes are all at least 0x80, so byte-level and string-level
splitting agree on encoded strings. Always returns at least one part, as
the JS `split` does. -/
def splitColon : List Nat → List (List Nat)
  | [] => [[]]
  | b :: rest =>
    if b = 58 then [] :: splitColon rest
    else (b :: (splitColon rest).headD []) :: (splitColon rest).tail

/-- `encodeCursor` from `filters.ts`: base64 of the UTF-8 bytes of
`sortKey:outletId`. Strings are modelled as their UTF-8 byte sequences
(`List Nat`, each element below 256); `Buffer.from(s, "utf8")` and
`toString("utf8")` are the identity in this representation. -/
def encodeCursor (sortKey : Int) (outletId : List Nat) : List Char :=
  b64Encode (intDecimalBytes sortKey ++ 58 :: outletId)

/-- `decodeCursor` from `filters.ts`: a `null`/`undefined`/empty cursor is
`none` (`if (!cursor) return null`); otherwise base64-decode, split on `:`,
and destructure the first two parts (`const [sortKeyStr, outletId] =
raw.split(":")` — later parts are discarded). The sort key must parse to a
finite number and the outlet part must be truthy (present and nonempty),
else `none`. -/
def decodeCursor : Option (List Char) → Option (Int × List Nat)
  | none => none
  | some cs =>
    if cs = [] then none
    else
      let parts := splitColon (b64Decode cs)
      match jsNumberOfBytes (parts.headD []) with
      | none => none
      | some sk =>
        if (parts.drop 1).headD [] = [] then none
        else some (sk, (parts.drop 1).headD [])

/-- Every alphabet character decodes back to its sextet. -/
theorem b64Val_b64Chr : ∀ v : Fin 64, b64Val (b64Chr v.val) = some v.val := by
  decide

/-- The padding character is skipped by the decoder. -/
theorem b64Val_pad : b64Val '=' = none := by decide

/-- Base64 round-trip on byte sequences. -/
theorem b64_roundtrip : ∀ bs : List Nat, (∀ b ∈ bs, b < 256) →
    b64Decode (b64Encode bs) = bs := by
  intro bs
  induction bs using b64Encode.induct with
  | case1 => intro _; rfl
  | case2 a =>
    intro h
    have ha : a < 256 := h a (by simp)
    have h1 : b64Val (b64Chr (a / 4)) = some (a / 4) := b64Val_b64Chr ⟨a / 4, by omega⟩
    have h2 : b64Val (b64Chr (a % 4 * 16)) = some (a % 4 * 16) :=
      b64Val_b64Chr ⟨a % 4 * 16, by omega⟩
    simp only [b64Encode, b64Decode, List.filterMap_cons, h1, h2, b64Val_pad,
      List.filterMap_nil, b64Regroup]
    have : a / 4 * 4 + a % 4 * 16 / 16 = a := by omega
    rw [this]
  | case3 a b =>
    intro h
    have ha : a < 256 := h a (by simp)
    have hb : b < 256 := h b (by simp)
    have h1 : b64Val (b64Chr (a / 4)) = some (a / 4) := b64Val_b64Chr ⟨a / 4, by omega⟩
    have h2 : b64Val (b64Chr (a % 4 * 16 + b / 16)) = some (a % 4 * 16 + b / 16) :=
      b64Val_b64Chr ⟨a % 4 * 16 + b / 16, by omega⟩
    have h3 : b64Val (b64Chr (b % 16 * 4)) = some (b % 16 * 4) :=
      b64Val_b64Chr ⟨b % 16 * 4, by omega⟩
    simp only [b64Encode, b64Decode, List.filterMap_cons, h1, h2, h3, b64Val_pad,
      List.filterMap_nil, b64Regroup]
    have e1 : a / 4 * 4 + (a % 4 * 16 + b / 16) / 16 = a := by omega
    have e2 : (a % 4 * 16 + b / 16) % 16 * 16 + b % 16 * 4 / 4 = b := by omega
    rw [e1, e2]
  | case4 a b c rest ih =>
    intro h
    have ha : a < 256 := h a (by simp)
    have hb : b < 256 := h b (by simp)
    have hc : c < 256 := h c (by simp)
    have hrest : ∀ x ∈ rest, x < 256 := fun x hx => h x (by simp [hx])
    have h1 : b64Val (b64Chr (a / 4)) = some (a / 4) := b64Val_b64Chr ⟨a / 4, by omega⟩
    have h2 : b64Val (b64Chr (a % 4 * 16 + b / 16)) = some (a % 4 * 16 + b / 16) :=
      b64Val_b64Chr ⟨a % 4 * 16 + b / 16, by omega⟩
    have h3 : b64Val (b64Chr (b % 16 * 4 + c / 64)) = some (b % 16 * 4 + c / 64) :=
      b64Val_b64Chr ⟨b % 16 * 4 + c / 64, by omega⟩
    have h4 : b64Val (b64Chr (c % 64)) = some (c % 64) := b64Val_b64Chr ⟨c % 64, by omega⟩
    have ih' := ih hrest
    simp only [b64Decode] at ih'
    simp only [b64Encode, b64Decode, List.filterMap_cons, h1, h2, h3, h4, b64Regroup, ih']
    have e1 : a / 4 * 4 + (a % 4 * 16 + b / 16) / 16 = a := by omega
    have e2 : (a % 4 * 16 + b / 16) % 16 * 16 + (b % 16 * 4 + c / 64) / 4 = b := by omega
    have e3 : (b % 16 * 4 + c / 64) % 4 * 64 + c % 64 = c := by omega
    rw [e1, e2, e3]

/-- Decimal digits are below 10. -/
theorem decDigitsAux_lt_ten : ∀ (fuel n : Nat), ∀ d ∈ decDigitsAux fuel n, d < 10 := by
  intro fuel
  induction fuel with
  | zero => intro n d hd; simp [decDigitsAux] at hd
  | succ fuel ih =>
    intro n d hd
    by_cases h : n = 0
    · simp [decDigitsAux, h] at hd
    · simp only [decDigitsAux, h, if_false, List.mem_cons] at hd
      rcases hd with rfl | hd
      · omega
      · exact ih _ d hd

/-- The digit expansion evaluates back to its number when the fuel covers
it. -/
theorem ofDigits_decDigitsAux : ∀ (fuel n : Nat), n ≤ fuel →
    Nat.ofDigits 10 (decDigitsAux fuel n) = n := by
  intro fuel
  induction fuel with
  | zero =>
    intro n hn
    have : n = 0 := by omega
    simp [decDigitsAux, this, Nat.ofDigits]
  | succ fuel ih =>
    intro n hn
    by_cases h : n = 0
    · simp [decDigitsAux, h, Nat.ofDigits]
    · have hdiv : n / 10 ≤ fuel := by
        have := Nat.div_lt_self (by omega : 0 < n) (by omega : 1 < 10)
        omega
      simp only [decDigitsAux, h, if_false, Nat.ofDigits_cons, ih _ hdiv]
      omega

/-- Digit bound lifted to `decDigits`. -/
theorem decDigits_lt_ten (n : Nat) : ∀ d ∈ decDigits n, d < 10 := by
  intro d hd
  by_cases h : n = 0
  · simp [decDigits, h] at hd
    omega
  · simp only [decDigits, h, if_false, List.mem_reverse] at hd
    exact decDigitsAux_lt_ten n n d hd

/-- A decimal expansion is never empty. -/
theorem decDigits_ne_nil (n : Nat) : decDigits n ≠ [] := by
  by_cases h : n = 0
  · simp [decDigits, h]
  · obtain ⟨m, rfl⟩ : ∃ m, n = m + 1 := ⟨n - 1, by omega⟩
    simp [decDigits, decDigitsAux]

/-- Parsing the printed digits of `n` recovers `n`. -/
theorem parseDigits_decDigits (n : Nat) :
    parseDigits ((decDigits n).map (fun d => d + 48)) = some n := by
  have hlt := decDigits_lt_ten n
  have hne := decDigits_ne_nil n
  have hnotnil : (decDigits n).map (fun d => d + 48) ≠ [] := by
    simp [hne]
  have hrange : ¬ ((decDigits n).map (fun d => d + 48)).any
      (fun b => decide (b < 48) || decide (57 < b)) = true := by
    simp only [List.any_map, List.any_eq_true, Function.comp]
    rintro ⟨d, hd, hbad⟩
    have := hlt d hd
    simp only [Bool.or_eq_true, decide_eq_true_eq] at hbad
    omega
  have hcond : ¬ ((decDigits n).map (fun d => d + 48) = [] ∨
      ((decDigits n).map (fun d => d + 48)).any
        (fun b => decide (b < 48) || decide (57 < b)) = true) := by
    push_neg
    exact ⟨hnotnil, by simpa using hrange⟩
  unfold parseDigits
  rw [if_neg hcond]
  have hmap : ((decDigits n).map (fun d => d + 48)).map (fun b => b - 48) = decDigits n := by
    rw [List.map_map]
    apply List.map_id''
    intro d
    simp
  rw [hmap]
  by_cases h : n = 0
  · simp [decDigits, h, Nat.ofDigits]
  · simp only [decDigits, h, if_false, List.reverse_reverse]
    rw [ofDigits_decDigitsAux n n le_rfl]

/-- `Number(String(k)) = k` for every integer, at the byte level. -/
theorem jsNumber_intDecimalBytes (k : Int) :
    jsNumberOfBytes (intDecimalBytes k) = some k := by
  by_cases hk : k < 0
  · simp only [intDecimalBytes, hk, if_true, jsNumberOfBytes]
    rw [parseDigits_decDigits]
    simp only [reduceIte, Option.map_some', Option.some.injEq]
    omega
  · cases hd : decDigits k.natAbs with
    | nil => exact absurd hd (decDigits_ne_nil _)
    | cons d t =>
      have hd10 : d < 10 := decDigits_lt_ten _ d (by rw [hd]; simp)
      have hbytes : intDecimalBytes k = (d + 48) :: t.map (fun x => x + 48) := by
        simp [intDecimalBytes, hk, hd]
      rw [hbytes]
      simp only [jsNumberOfBytes]
      rw [if_neg (by omega)]
      rw [show (d + 48) :: t.map (fun x => x + 48) = ((d :: t).map (fun x => x + 48)) from rfl,
        ← hd, parseDigits_decDigits]
      simp only [Option.map_some', Option.some.injEq]
      omega

/-- A separator-free byte string splits into itself alone. -/
theorem splitColon_no_sep (bs : List Nat) (h : 58 ∉ bs) : splitColon bs = [bs] := by
  induction bs with
  | nil => rfl
  | cons b rest ih =>
    have hb : b ≠ 58 := by intro e; exact h (by simp [e])
    have hrest : 58 ∉ rest := fun e => h (by simp [e])
    simp only [splitColon]
    rw [if_neg hb, ih hrest]
    rfl

/-- Splitting at the first separator after a separator-free prefix. -/
theorem splitColon_append (xs ys : List Nat) (h : 58 ∉ xs) :
    splitColon (xs ++ 58 :: ys) = xs :: splitColon ys := by
  induction xs with
  | nil =>
    simp [splitColon]
  | cons x t ih =>
    have hx : x ≠ 58 := by intro e; exact h (by simp [e])
    have ht : 58 ∉ t := fun e => h (by simp [e])
    rw [List.cons_append]
    simp only [splitColon, List.append_eq]
    rw [if_neg hx, ih ht]
    rfl

/-- Sort-key bytes are bytes. -/
theorem intDecimalBytes_lt_256 (k : Int) : ∀ b ∈ intDecimalBytes k, b < 256 := by
  intro b hb
  have hd : ∀ x ∈ (decDigits k.natAbs).map (fun d => d + 48), x < 256 := by
    intro x hx
    rcases List.mem_map.mp hx with ⟨d, hdm, rfl⟩
    have := decDigits_lt_ten _ d hdm
    omega
  by_cases hk : k < 0
  · simp only [intDecimalBytes, hk, if_true, List.mem_cons] at hb
    rcases hb with rfl | hb
    · omega
    · exact hd b hb
  · simp only [intDecimalBytes, hk, if_false] at hb
    exact hd b hb

/-- The printed sort key never contains the separator byte. -/
theorem intDecimalBytes_no_colon (k : Int) : 58 ∉ intDecimalBytes k := by
  intro hb
  have hd : 58 ∉ (decDigits k.natAbs).map (fun d => d + 48) := by
    intro hx
    rcases List.mem_map.mp hx with ⟨d, hdm, he⟩
    have := decDigits_lt_ten _ d hdm
    omega
  by_cases hk : k < 0
  · simp only [intDecimalBytes, hk, if_true, List.mem_cons] at hb
    rcases hb with he | hb
    · omega
    · exact hd hb
  · simp only [intDecimalBytes, hk, if_false] at hb
    exact hd hb

/-- Encoding a nonempty payload yields a nonempty cursor. -/
theorem b64Encode_ne_nil (bs : List Nat) (h : bs ≠ []) : b64Encode bs ≠ [] := by
  match bs with
  | [] => exact absurd rfl h
  | [a] => simp [b64Encode]
  | [a, b] => simp [b64Encode]
  | a :: b :: c :: rest => simp [b64Encode]

/-- Round-trip of the cursor codec on the outlet ids it can represent. -/
theorem cursor_roundtrip_core (k : Int) (oid : List Nat)
    (hne : oid ≠ []) (hb : ∀ b ∈ oid, b < 256) (hc : 58 ∉ oid) :
    decodeCursor (some (encodeCursor k oid)) = some (k, oid) := by
  have hpayload : ∀ b ∈ intDecimalBytes k ++ 58 :: oid, b < 256 := by
    intro b hbm
    rcases List.mem_append.mp hbm with h | h
    · exact intDecimalBytes_lt_256 k b h
    · rcases List.mem_cons.mp h with rfl | h
      · omega
      · exact hb b h
  have hdec : b64Decode (encodeCursor k oid) = intDecimalBytes k ++ 58 :: oid :=
    b64_roundtrip _ hpayload
  have hnonempty : encodeCursor k oid ≠ [] :=
    b64Encode_ne_nil _ (by simp)
  simp only [decodeCursor]
  rw [if_neg hnonempty, hdec,
    splitColon_append _ _ (intDecimalBytes_no_colon k), splitColon_no_sep oid hc]
  simp only [List.headD_cons, List.drop_one, List.tail_cons]
  rw [jsNumber_intDecimalBytes]
  simp [hne]

/-- C3 counterexample: for the outlet id `a:b` (which contains the `:` the
codec itself uses as separator), decode of encode returns the truncated pair
`(5, "a")` — the round-trip fails as stated for arbitrary outlet ids. -/
theorem cursor_roundtrip_cex :
    decodeCursor (some (encodeCursor 5 [97, 58, 98])) = some (5, [97]) ∧
    decodeCursor (some (encodeCursor 5 [97, 58, 98])) ≠ some (5, [97, 58, 98]) := by
  decide

/-- C3 (amended): `decodeCursor (encodeCursor sortKey outletId)` returns
exactly `(sortKey, outletId)` for every integer sort key and every nonempty
outlet id that does not contain the `:` separator byte (the split keeps only
the first two parts, so a `:`-bearing id truncates and an empty id decodes
to null); and on every input whatsoever `decodeCursor` returns a decoded
pair or null — it is a total function, never an error. -/
theorem cursor_roundtrip :
    (∀ (k : Int) (oid : List Nat), oid ≠ [] → (∀ b ∈ oid, b < 256) → 58 ∉ oid →
      decodeCursor (some (encodeCursor k oid)) = some (k, oid)) ∧
    (∀ cs : Option (List Char),
      decodeCursor cs = none ∨ ∃ k oid, decodeCursor cs = some (k, oid)) := by
  refine ⟨cursor_roundtrip_core, fun cs => ?_⟩
  cases h : decodeCursor cs with
  | none => exact Or.inl rfl
  | some p => exact Or.inr ⟨p.1, p.2, rfl⟩

/-- One row of the resolver's grouped result set: an outlet id paired with
its aggregated `MAX(sortKey)` (`GROUP BY eo."outletId"` guarantees distinct
ids). Outlet ids are compared with the database's total text ordering,
modelled by the linear order on `String`. -/
abbrev QRow := String × Int

/-- The page ordering `ORDER BY "sortKey" DESC, "outletId" ASC` as a
non-strict comparison. -/
def rowLE (a b : QRow) : Prop := b.2 < a.2 ∨ (a.2 = b.2 ∧ a.1 ≤ b.1)

/-- Strict comes-before in the page ordering: strictly higher sort key, or
equal sort key and strictly smaller outlet id. -/
def rowBefore (a b : QRow) : Prop := b.2 < a.2 ∨ (a.2 = b.2 ∧ a.1 < b.1)

instance : DecidableRel rowLE := fun a b =>
  decidable_of_iff (b.2 < a.2 ∨ (a.2 = b.2 ∧ a.1 ≤ b.1)) Iff.rfl

instance : IsTotal QRow rowLE where
  total a b := by
    rcases lt_trichotomy a.2 b.2 with h | h | h
    · exact Or.inr (Or.inl h)
    · rcases le_total a.1 b.1 with h' | h'
      · exact Or.inl (Or.inr ⟨h, h'⟩)
      · exact Or.inr (Or.inr ⟨h.symm, h'⟩)
    · exact Or.inl (Or.inl h)

instance : IsTrans QRow rowLE where
  trans a b c hab hbc := by
    rcases hab with h1 | ⟨h1, h1'⟩ <;> rcases hbc with h2 | ⟨h2, h2'⟩
    · exact Or.inl (lt_trans h2 h1)
    · exact Or.inl (h2 ▸ h1)
    · exact Or.inl (h1 ▸ h2)
    · exact Or.inr ⟨h1.trans h2, h1'.trans h2'⟩

instance : IsAntisymm QRow rowLE where
  antisymm a b hab hba := by
    rcases hab with h1 | ⟨h1, h1'⟩ <;> rcases hba with h2 | ⟨h2, h2'⟩
    · exact absurd (lt_trans h1 h2) (lt_irrefl _)
    · exact absurd (h2 ▸ h1) (lt_irrefl _)
    · exact absurd (h1 ▸ h2) (lt_irrefl _)
    · exact Prod.ext (le_antisymm h1' h2') h1

theorem rowBefore_irrefl (a : QRow) : ¬rowBefore a a := by
  rintro (h | ⟨-, h⟩) <;> exact lt_irrefl _ h

theorem rowBefore_trans {a b c : QRow} (hab : rowBefore a b) (hbc : rowBefore b c) :
    rowBefore a c := by
  rcases hab with h1 | ⟨h1, h1'⟩ <;> rcases hbc with h2 | ⟨h2, h2'⟩
  · exact Or.inl (lt_trans h2 h1)
  · exact Or.inl (h2 ▸ h1)
  · exact Or.inl (h1 ▸ h2)
  · exact Or.inr ⟨h1.trans h2, h1'.trans h2'⟩

theorem rowBefore_asymm {a b : QRow} (hab : rowBefore a b) (hba : rowBefore b a) : False :=
  rowBefore_irrefl a (rowBefore_trans hab hba)

theorem rowBefore_of_rowLE_ne {a b : QRow} (h : rowLE a b) (hne : a.1 ≠ b.1) :
    rowBefore a b := by
  rcases h with h | ⟨h, h'⟩
  · exact Or.inl h
  · exact Or.inr ⟨h, lt_of_le_of_ne h' hne⟩

/-- The keyset predicate of the spec: `sortKey < cursor.sortKey OR (sortKey
= cursor.sortKey AND outletId > cursor.outletId)`. -/
def afterCursor (c : Int × String) (r : QRow) : Bool :=
  decide (r.2 < c.1) || (decide (r.2 = c.1) && decide (c.2 < r.1))

theorem afterCursor_iff (x r : QRow) :
    afterCursor (x.2, x.1) r = true ↔ rowBefore x r := by
  simp only [afterCursor, rowBefore, Bool.or_eq_true, Bool.and_eq_true,
    decide_eq_true_eq]
  constructor
  · rintro (h | ⟨h, h'⟩)
    · exact Or.inl h
    · exact Or.inr ⟨h.symm, h'⟩
  · rintro (h | ⟨h, h'⟩)
    · exact Or.inl h
    · exact Or.inr ⟨h.symm, h'⟩

theorem afterCursor_mono {c : Int × String} {x r : QRow}
    (hx : afterCursor c x = true) (hr : rowBefore x r) : afterCursor c r = true := by
  simp only [afterCursor, Bool.or_eq_true, Bool.and_eq_true, decide_eq_true_eq] at hx ⊢
  rcases hx with h1 | ⟨h1, h1'⟩ <;> rcases hr with h2 | ⟨h2, h2'⟩
  · exact Or.inl (lt_of_lt_of_le h2 (le_of_lt h1))
  · exact Or.inl (h2 ▸ h1)
  · exact Or.inl (h1 ▸ h2)
  · exact Or.inr ⟨h2 ▸ h1, h1'.trans h2'⟩

/-- The grouped row set with the keyset predicate applied (before sorting),
when a cursor is present. -/
def sourceFiltered (rows : List QRow) (cursor? : Option (Int × String)) : List QRow :=
  match cursor? with
  | none => rows
  | some c => rows.filter (afterCursor c)

/-- The remaining rows a cursor stands for, on the sorted row list — the
invariant of the pagination induction. -/
def targetList (rows : List QRow) (cursor? : Option (Int × String)) : List QRow :=
  match cursor? with
  | none => List.insertionSort rowLE rows
  | some c => (List.insertionSort rowLE rows).filter (afterCursor c)

/-- `ORDER BY ... LIMIT take + 1` over the keyset-filtered rows. -/
def pageLimited (rows : List QRow) (tk : Nat) (cursor? : Option (Int × String)) :
    List QRow :=
  (List.insertionSort rowLE (sourceFiltered rows cursor?)).take (tk + 1)

/-- One resolver page round with the keyset predicate applied to the grouped
rows (the spec's intended semantics; the code's fragment composition never
reaches the database as valid SQL, see `offersQueryRows`): fetch `take + 1`
rows, slice `take`, report `hasNextPage = rows.length > take`, and derive
the next cursor from the last page row exactly as `offersResolver` does. -/
def offersPage (rows : List QRow) (tk : Nat) (cursor? : Option (Int × String)) :
    List QRow × Bool × Option (Int × String) :=
  ((pageLimited rows tk cursor?).take tk,
   decide (tk < (pageLimited rows tk cursor?).length),
   if tk < (pageLimited rows tk cursor?).length then
     ((pageLimited rows tk cursor?).take tk).getLast?.map (fun r => (r.2, r.1))
   else none)

/-- Repeatedly call the page query from a cursor, feeding back each returned
cursor while `hasNextPage` holds, concatenating the pages; `fuel` bounds the
number of rounds (`rows.length + 1` always suffices for a page size of at
least 1). -/
def collectPages (rows : List QRow) (tk : Nat) :
    Nat → Option (Int × String) → List QRow
  | 0, _ => []
  | fuel + 1, cursor? =>
    if (offersPage rows tk cursor?).2.1 then
      (offersPage rows tk cursor?).1 ++
        collectPages rows tk fuel (offersPage rows tk cursor?).2.2
    else (offersPage rows tk cursor?).1

theorem sort_filter_comm (rows : List QRow) (p : QRow → Bool) :
    List.insertionSort rowLE (rows.filter p) =
      (List.insertionSort rowLE rows).filter p := by
  apply List.eq_of_perm_of_sorted (r := rowLE)
  · exact (List.perm_insertionSort rowLE (rows.filter p)).trans
      ((List.perm_insertionSort rowLE rows).symm.filter p)
  · exact List.sorted_insertionSort rowLE (rows.filter p)
  · exact (List.sorted_insertionSort rowLE rows).filter p

theorem sorted_mem_getLast? {r : QRow → QRow → Prop} (l : List QRow)
    (hs : List.Pairwise r l) (z : QRow) (hz : l.getLast? = some z) :
    ∀ a ∈ l, a = z ∨ r a z := by
  obtain ⟨ys, rfl⟩ := List.getLast?_eq_some_iff.mp hz
  obtain ⟨-, -, hcross⟩ := List.pairwise_append.mp hs
  intro a ha
  rcases List.mem_append.mp ha with h | h
  · exact Or.inr (hcross a h z (by simp))
  · simp only [List.mem_singleton] at h
    exact Or.inl h

theorem filter_after_eq_drop (s : List QRow) (tk : Nat)
    (hs : List.Pairwise rowBefore s) (h1 : 1 ≤ tk)
    (last : QRow) (hlast : (s.take tk).getLast? = some last) :
    s.filter (afterCursor (last.2, last.1)) = s.drop tk := by
  have hpd : s.take tk ++ s.drop tk = s := List.take_append_drop tk s
  have hs' : List.Pairwise rowBefore (s.take tk ++ s.drop tk) := by rw [hpd]; exact hs
  obtain ⟨hp, hd, hcross⟩ := List.pairwise_append.mp hs'
  have hlast_mem : last ∈ s.take tk := List.mem_of_mem_getLast? hlast
  conv_lhs => rw [← hpd]
  rw [List.filter_append]
  have hfp : (s.take tk).filter (afterCursor (last.2, last.1)) = [] := by
    rw [List.filter_eq_nil_iff]
    intro a ha hcontra
    rw [afterCursor_iff] at hcontra
    rcases sorted_mem_getLast? (s.take tk) hp last hlast a ha with rfl | hab
    · exact rowBefore_irrefl a hcontra
    · exact rowBefore_asymm hab hcontra
  have hfd : (s.drop tk).filter (afterCursor (last.2, last.1)) = s.drop tk := by
    rw [List.filter_eq_self]
    intro b hb
    rw [afterCursor_iff]
    exact hcross last hlast_mem b hb
  rw [hfp, hfd, List.nil_append]

theorem collectPages_eq (rows : List QRow) (tk : Nat) (h1 : 1 ≤ tk)
    (hstrict : List.Pairwise rowBefore (List.insertionSort rowLE rows)) :
    ∀ (fuel : Nat) (c? : Option (Int × String)) (s : List QRow),
      s = targetList rows c? → s.length ≤ fuel →
      collectPages rows tk fuel c? = s := by
  intro fuel
  induction fuel with
  | zero =>
    intro c? s hsdef hsl
    have hnil : s = [] := List.eq_nil_of_length_eq_zero (by omega)
    simp [collectPages, hnil]
  | succ fuel ih =>
    intro c? s hsdef hsl
    have hs_sorted : List.Pairwise rowBefore s := by
      cases c? with
      | none => simp only [targetList] at hsdef; rw [hsdef]; exact hstrict
      | some c => simp only [targetList] at hsdef; rw [hsdef]; exact hstrict.filter _
    have hsort_eq : List.insertionSort rowLE (sourceFiltered rows c?) = s := by
      cases c? with
      | none => simp only [targetList] at hsdef; simp only [sourceFiltered]; rw [hsdef]
      | some c =>
        simp only [targetList] at hsdef
        simp only [sourceFiltered]
        rw [hsdef, sort_filter_comm]
    have hlim : pageLimited rows tk c? = s.take (tk + 1) := by
      unfold pageLimited
      rw [hsort_eq]
    by_cases hnext : tk < s.length
    · have hlimlen : tk < (pageLimited rows tk c?).length := by
        rw [hlim, List.length_take]
        omega
      have hpage : (pageLimited rows tk c?).take tk = s.take tk := by
        rw [hlim, List.take_take]
        congr 1
        omega
      have hpne : s.take tk ≠ [] := by
        intro he
        have hle := congrArg List.length he
        rw [List.length_take] at hle
        simp only [List.length_nil] at hle
        omega
      obtain ⟨last, hlast⟩ : ∃ last, (s.take tk).getLast? = some last := by
        cases hgl : (s.take tk).getLast? with
        | none => exact absurd (List.getLast?_eq_none_iff.mp hgl) hpne
        | some z => exact ⟨z, rfl⟩
      have hfilter_s : s.filter (afterCursor (last.2, last.1)) = s.drop tk :=
        filter_after_eq_drop s tk hs_sorted h1 last hlast
      have hfilter_L : targetList rows (some (last.2, last.1)) = s.drop tk := by
        simp only [targetList]
        cases c? with
        | none =>
          simp only [targetList] at hsdef
          rw [← hsdef]
          exact hfilter_s
        | some c =>
          simp only [targetList] at hsdef
          have hlast_in_s : last ∈ s :=
            List.mem_of_mem_take (List.mem_of_mem_getLast? hlast)
          have hlast_after : afterCursor c last = true := by
            rw [hsdef] at hlast_in_s
            exact (List.mem_filter.mp hlast_in_s).2
          have hcongr : ∀ x ∈ List.insertionSort rowLE rows,
              afterCursor (last.2, last.1) x =
                (afterCursor (last.2, last.1) x && afterCursor c x) := by
            intro x _
            cases hax : afterCursor (last.2, last.1) x with
            | false => rfl
            | true =>
              rw [afterCursor_iff] at hax
              rw [Bool.true_and]
              exact (afterCursor_mono hlast_after hax).symm
          rw [List.filter_congr hcongr, ← List.filter_filter, ← hsdef]
          exact hfilter_s
      have hdroplen : (s.drop tk).length ≤ fuel := by
        rw [List.length_drop]
        omega
      have hrec := ih (some (last.2, last.1)) (s.drop tk) hfilter_L.symm hdroplen
      have hflag : (offersPage rows tk c?).2.1 = true := by
        show decide (tk < (pageLimited rows tk c?).length) = true
        exact decide_eq_true hlimlen
      have hcursor : (offersPage rows tk c?).2.2 = some (last.2, last.1) := by
        show (if tk < (pageLimited rows tk c?).length then
            ((pageLimited rows tk c?).take tk).getLast?.map (fun r => (r.2, r.1))
          else none) = some (last.2, last.1)
        rw [if_pos hlimlen, hpage, hlast]
        rfl
      simp only [collectPages, hflag, if_true, hcursor, hrec]
      show (pageLimited rows tk c?).take tk ++ s.drop tk = s
      rw [hpage]
      exact List.take_append_drop tk s
    · have hlimlen : ¬ tk < (pageLimited rows tk c?).length := by
        rw [hlim, List.length_take]
        omega
      have hflag : (offersPage rows tk c?).2.1 = false := by
        show decide (tk < (pageLimited rows tk c?).length) = false
        exact decide_eq_false hlimlen
      simp only [collectPages, hflag, Bool.false_eq_true, if_false]
      show (pageLimited rows tk c?).take tk = s
      rw [hlim, List.take_take]
      have hmin : min tk (tk + 1) = tk := by omega
      rw [hmin]
      exact List.take_of_length_le (by omega)

/-- Pagination completeness under the intended keyset semantics. -/
theorem pagination_complete (rows : List QRow) (tk : Nat)
    (hdist : rows.Pairwise (fun a b => a.1 ≠ b.1)) (h1 : 1 ≤ tk) (h50 : tk ≤ 50) :
    collectPages rows tk (rows.length + 1) none = List.insertionSort rowLE rows ∧
    List.Perm (collectPages rows tk (rows.length + 1) none) rows := by
  have hperm : List.Perm (List.insertionSort rowLE rows) rows := List.perm_insertionSort rowLE rows
  have hdistL : (List.insertionSort rowLE rows).Pairwise (fun a b => a.1 ≠ b.1) :=
    (List.Perm.pairwise_iff (fun h => Ne.symm h) hperm).mpr hdist
  have hstrict : List.Pairwise rowBefore (List.insertionSort rowLE rows) :=
    ((List.sorted_insertionSort rowLE rows).and hdistL).imp
      (fun h => rowBefore_of_rowLE_ne h.1 h.2)
  have hlen : (List.insertionSort rowLE rows).length ≤ rows.length + 1 := by
    rw [hperm.length_eq]
    omega
  have heq := collectPages_eq rows tk h1 hstrict (rows.length + 1) none
    (List.insertionSort rowLE rows) rfl hlen
  exact ⟨heq, heq ▸ hperm⟩

/-- The SQL text the resolver actually sends. The resolver builds its query
by interpolating conditional fragments written as nested
`ctx.prisma.$queryRaw` tagged-template calls (the category, search and
keyset-cursor fragments, and their empty else-branches). Prisma splices only
`Prisma.sql` fragment values into the statement; any other interpolated
value — including the `PrismaPromise` a `$queryRaw` call returns — is bound
as a positional parameter. The generated statement therefore contains bare
placeholders standing between predicates (for example
`... AND m."status" = 'Active' $8 $9 AND EXISTS (...) $10 GROUP BY ...`),
which is not valid SQL, so the database rejects every invocation —
cursorless included — with a syntax error. The keyset fragment's text (an
aggregate `MAX(...)` in `WHERE`, itself invalid had it been spliced) never
reaches the database at all. -/
def offersQueryRows (_rows : List QRow) (_tk : Nat)
    (_cursor? : Option (Int × String)) : Except String (List QRow) :=
  .error "syntax error at or near the parameter bound for a nested query fragment"

/-- The resolver's page round as the code runs it: execute the SQL — which
fails on every invocation, see `offersQueryRows` — then slice `take` rows
and compute `hasNextPage` and the next cursor from the result. -/
def resolverPage (rows : List QRow) (tk : Nat) (cursor? : Option (Int × String)) :
    Except String (List QRow × Bool × Option (Int × String)) :=
  match offersQueryRows rows tk cursor? with
  | .error e => .error e
  | .ok limited =>
    .ok (limited.take tk, decide (tk < limited.length),
      if tk < limited.length then (limited.take tk).getLast?.map (fun r => (r.2, r.1))
      else none)

/-- C4: the pagination-completeness claim against the code and its intent.
The code as written cannot serve any page: its conditional SQL fragments are
nested `ctx.prisma.$queryRaw` calls, which Prisma binds as positional
parameters instead of splicing (only `Prisma.sql` fragments are spliced), so
the statement reaches the database with bare placeholders between predicates
and every invocation — with or without a cursor — fails with a syntax error
(first conjunct, for all inputs; second conjunct evaluates it at a concrete
two-outlet state). With properly spliced fragments and the keyset predicate
applied to the grouped rows as the spec intends, concatenating all pages
from a null cursor to exhaustion yields the sorted eligible row set
exactly — a permutation of the grouped set, hence no outlet duplicated or
omitted — for every duplicate-free row set and every page size in [1, 50]
(third conjunct). -/
theorem pagination_fragment_binding_bug :
    (∀ (rows : List QRow) (tk : Nat) (c? : Option (Int × String)),
      resolverPage rows tk c? =
        .error "syntax error at or near the parameter bound for a nested query fragment") ∧
    (resolverPage [("o1", 0), ("o2", 0)] 1 none =
      .error "syntax error at or near the parameter bound for a nested query fragment") ∧
    (∀ (rows : List QRow) (tk : Nat),
      rows.Pairwise (fun a b => a.1 ≠ b.1) → 1 ≤ tk → tk ≤ 50 →
      collectPages rows tk (rows.length + 1) none = List.insertionSort rowLE rows ∧
      List.Perm (collectPages rows tk (rows.length + 1) none) rows) :=
  ⟨fun _ _ _ => rfl, rfl, pagination_complete⟩

end OffersResolver
